import Mathlib

/-!
photoTweaker: the effect registry and the main window shell

A shallow embedding of `src/src/photoTweaker.cpp` (class `PhotoTweaker`):
the settings store is an explicit value, the main window is an explicit
state record, and every slot is a function on that state.  Effect objects
live in an explicit heap (a list indexed by address) because the registry
holds them by pointer.
-/

/-! ## Constants (photoTweaker.cpp, lines 28-31) -/

namespace PhotoTweakerConst

def EFFECT_COUNT : Nat := 3
def EFFECT_ROTATION : Int := 0
def EFFECT_GRAYSCALE : Int := 1
def EFFECT_SCALE : Int := 2

end PhotoTweakerConst

open PhotoTweakerConst

/-! ## The settings store -/

/-- One element of the indexed array `application/effects`: the three keys
`id`, `name` and `enabled` that `writeSettings` stores and `readSettings`
reads back (as int, string and bool). -/
structure EffectRecord where
  id : Int
  name : String
  enabled : Bool
deriving DecidableEq

/-- The part of the `QSettings("graphicslab.org", "photoTweaker")` store that
the main window reads and writes: `window/size`, `window/pos` (absent until
first written) and the array `application/effects`, whose length is what
`beginReadArray` returns. -/
structure Settings where
  windowSize : Option (Int × Int)
  windowPos : Option (Int × Int)
  effects : List EffectRecord
deriving DecidableEq

/-! ## Effect objects -/

/-- The four classes derived from `AbstractEffect` that `initializeEffects`
instantiates. -/
inductive EffectClass where
  | EffectRotate
  | EffectGrayscale
  | EffectScale
  | EffectDisabled
deriving DecidableEq

/-- Modelled from the spec: the class `AbstractEffect` (effect/*.h) is not
among the sources. An effect object carries its class, whether `setMainApp`
was called on it, the name given by `setEffectName`, the flag given by
`setEnabled` and reported by `getEnabled`, and whether its own `readSettings`
was called. -/
structure AbstractEffect where
  cls : EffectClass
  mainApp : Bool
  effectName : String
  enabled : Bool
  settingsRead : Bool
deriving DecidableEq

namespace AbstractEffect

/-- A freshly constructed effect object of class `c`: nothing set yet. -/
def create (c : EffectClass) : AbstractEffect :=
  { cls := c, mainApp := false, effectName := "", enabled := false, settingsRead := false }

def setMainApp (e : AbstractEffect) : AbstractEffect := { e with mainApp := true }

def setEffectName (name : String) (e : AbstractEffect) : AbstractEffect :=
  { e with effectName := name }

def setEnabled (flag : Bool) (e : AbstractEffect) : AbstractEffect :=
  { e with enabled := flag }

def getEnabled (e : AbstractEffect) : Bool := e.enabled

/-- The effect's own `readSettings`: loads the effect's private settings,
which the shell never looks at; only the fact of the call is recorded. -/
def readSettings (e : AbstractEffect) : AbstractEffect := { e with settingsRead := true }

/-- The effect's own `writeSettings`: stores the effect's private settings
under keys the shell does not read; the object is unchanged. -/
def writeSettings (e : AbstractEffect) : AbstractEffect := e

end AbstractEffect

/-- The heap of effect objects: the address of an object is its index. -/
abbrev Heap := List AbstractEffect

namespace Heap

/-- The C++ expression `new C()`: the object is placed at a fresh address. -/
def alloc (h : Heap) (c : EffectClass) : Nat × Heap :=
  (h.length, h ++ [AbstractEffect.create c])

/-- A member call `p->f(...)` that mutates the object: undefined (`none`)
when `p` is uninitialised or does not point to an object. -/
def call (h : Heap) (p : Option Nat) (f : AbstractEffect → AbstractEffect) : Option Heap :=
  match p with
  | none => none
  | some a =>
    match h[a]? with
    | none => none
    | some e => some (h.set a (f e))

/-- Reading through a pointer: undefined (`none`) when `p` is uninitialised
or does not point to an object. -/
def deref (h : Heap) (p : Option Nat) : Option AbstractEffect :=
  match p with
  | none => none
  | some a => h[a]?

end Heap

/-! ## The registry and the main window state -/

/-- The struct `PhotoTweaker::effectStruct`: a descriptor and the pointer to
its effect object (`none` while the pointer has not been assigned). -/
structure effectStruct where
  id : Int
  name : String
  enabled : Bool
  effect : Option Nat
deriving DecidableEq

/-- The persisted part of a descriptor. -/
def effectStruct.record (e : effectStruct) : EffectRecord :=
  { id := e.id, name := e.name, enabled := e.enabled }

/-- Calls received by the `Photo` widget, in order. -/
inductive PhotoCall where
  | open (filePath : String)
  | update
  | save
deriving DecidableEq

/-- Modelled from the spec: the `Photo` class used by `photoTweaker.cpp`
(with `bool open(QString)`) is not among the sources. The document is Closed
until an `open` succeeds; the widget owns one undo stack; `onSave` lists the
effect objects connected to the signal `onSave(QImage&)`; `calls` logs the
calls the shell made. -/
structure Photo where
  isOpen : Bool
  undoStack : Nat
  onSave : List Nat
  calls : List PhotoCall
deriving DecidableEq

/-- The Qt class `QUndoGroup`: the stacks added to the group and the active
one. -/
structure QUndoGroup where
  stackList : List Nat
  activeStack : Option Nat
deriving DecidableEq

namespace QUndoGroup

/-- The call `QUndoGroup::addStack`: a stack already in the group is not
added twice. -/
def addStack (g : QUndoGroup) (s : Nat) : QUndoGroup :=
  if s ∈ g.stackList then g else { g with stackList := g.stackList ++ [s] }

/-- The call `QUndoGroup::setActiveStack`: ignored for a stack that is not
in the group. -/
def setActiveStack (g : QUndoGroup) (s : Nat) : QUndoGroup :=
  if s ∈ g.stackList then { g with activeStack := some s } else g

end QUndoGroup

/-- The state of the main window `PhotoTweaker` that the modelled slots read
or write. `toolBar` is `none` while the member pointer is NULL, otherwise the
buttons it holds (each named by the address of the effect that added it). -/
structure PhotoTweaker where
  size : Int × Int
  pos : Int × Int
  effects : List effectStruct
  heap : Heap
  toolBar : Option (List Nat)
  filePath : String
  photo : Photo
  undoGroup : QUndoGroup
deriving DecidableEq

namespace PhotoTweaker

/-- The persisted view of the registry: id, name and enabled per entry. -/
def descriptors (w : PhotoTweaker) : List EffectRecord :=
  w.effects.map effectStruct.record

/-- The three built-in descriptors of `readSettings` (lines 106-118). -/
def defaultEffects : List effectStruct :=
  [ { id := EFFECT_SCALE, name := "Scale", enabled := true, effect := none },
    { id := EFFECT_ROTATION, name := "Rotate", enabled := true, effect := none },
    { id := EFFECT_GRAYSCALE, name := "Grayscale", enabled := true, effect := none } ]

/-- The read loop of `readSettings` (lines 92-100): one item per array
element, appended in index order; the pointer member is not assigned. -/
def readArray (arr : List EffectRecord) (acc : List effectStruct) : List effectStruct :=
  match arr with
  | [] => acc
  | r :: rest =>
    readArray rest (acc ++ [{ id := r.id, name := r.name, enabled := r.enabled, effect := none }])

/-- The method `PhotoTweaker::readSettings` (lines 85-121). -/
def readSettings (settings : Settings) (w : PhotoTweaker) : PhotoTweaker :=
  let w := { w with size := settings.windowSize.getD (400, 400) }
  let w := { w with pos := settings.windowPos.getD (200, 200) }
  let w := { w with effects := [] }
  let w := { w with effects := readArray settings.effects w.effects }
  if w.effects.length ≠ EFFECT_COUNT then
    { w with effects := defaultEffects }
  else
    w

/-- The write loop of `writeSettings` (lines 75-81): element `i` of the
array receives `effects[i].id`, `effects[i].name`, `effects[i].enabled`. -/
def writeArray (effects : List effectStruct) (acc : List EffectRecord) : List EffectRecord :=
  match effects with
  | [] => acc
  | e :: rest => writeArray rest (acc ++ [{ id := e.id, name := e.name, enabled := e.enabled }])

/-- The method `PhotoTweaker::writeSettings` (lines 65-83): the array is
rewritten from index 0 and `endArray` stores the number of elements written. -/
def writeSettings (settings : Settings) (w : PhotoTweaker) : Settings :=
  { settings with
    windowSize := some w.size,
    windowPos := some w.pos,
    effects := writeArray w.effects [] }

/-- The handler `PhotoTweaker::closeEvent` (lines 400-411): the settings are
written and the event is accepted, with no condition. The result is the new
store and whether the event was accepted. -/
def closeEvent (settings : Settings) (w : PhotoTweaker) : Settings × Bool :=
  (writeSettings settings w, true)

/-- One pass of the loop body of `initializeEffects` (lines 128-151) for
index `i`. `effect` is the local pointer variable declared before the loop:
`none` while nothing was assigned to it, and carried from one pass to the
next. The result is `none` where the C++ behaviour is undefined: indexing
past the end of the list, or a member call through an unassigned pointer. -/
def initializeEffectsBody (i : Nat) (effect : Option Nat) (w : PhotoTweaker) :
    Option (Option Nat × PhotoTweaker) :=
  match w.effects[i]? with
  | none => none
  | some item =>
    let chosen : Option (Option Nat × Heap) :=
      if item.enabled then
        let assigned : Option Nat × Heap :=
          if item.id = EFFECT_ROTATION then
            let r := Heap.alloc w.heap EffectClass.EffectRotate
            (some r.1, r.2)
          else if item.id = EFFECT_GRAYSCALE then
            let r := Heap.alloc w.heap EffectClass.EffectGrayscale
            (some r.1, r.2)
          else if item.id = EFFECT_SCALE then
            let r := Heap.alloc w.heap EffectClass.EffectScale
            (some r.1, r.2)
          else
            (effect, w.heap)
        (Heap.call assigned.2 assigned.1 AbstractEffect.setMainApp).map
          (fun h => (assigned.1, h))
      else
        let r := Heap.alloc w.heap EffectClass.EffectDisabled
        some (some r.1, r.2)
    chosen.bind fun c =>
    (Heap.call c.2 c.1 (AbstractEffect.setEffectName item.name)).bind fun h1 =>
    (Heap.call h1 c.1 (AbstractEffect.setEnabled item.enabled)).bind fun h2 =>
    (Heap.call h2 c.1 AbstractEffect.readSettings).bind fun h3 =>
    some (c.1, { w with heap := h3, effects := w.effects.set i { item with effect := c.1 } })

/-- The loop `for (int i = 0; i < EFFECT_COUNT; i++)` of `initializeEffects`:
`n` passes remain, the next index is `i`. -/
def initializeEffectsLoop (n i : Nat) (effect : Option Nat) (w : PhotoTweaker) :
    Option PhotoTweaker :=
  match n with
  | 0 => some w
  | n + 1 =>
    (initializeEffectsBody i effect w).bind fun r =>
    initializeEffectsLoop n (i + 1) r.1 r.2

/-- The method `PhotoTweaker::initializeEffects` (lines 123-154). -/
def initializeEffects (w : PhotoTweaker) : Option PhotoTweaker :=
  initializeEffectsLoop EFFECT_COUNT 0 none w

end PhotoTweaker

/-- Modelled from the spec: `addToToolBar` of the effect classes is not among
the sources. The spec gives the toolbar "one button per enabled effect", so
an effect that reports enabled adds one button (named by the address `addr` of
the effect) at the end of the toolbar and any other effect adds nothing. -/
def AbstractEffect.addToToolBar (e : AbstractEffect) (addr : Nat) (toolBar : List Nat) :
    List Nat :=
  if e.getEnabled then toolBar ++ [addr] else toolBar

namespace PhotoTweaker

/-- The loop `foreach (effectStruct item, effects)` of `initializeToolBar`
(lines 263-266): `none` when a pointer is unassigned or dangling. -/
def addEffectsToToolBar (heap : Heap) (items : List effectStruct) (toolBar : List Nat) :
    Option (List Nat) :=
  match items with
  | [] => some toolBar
  | item :: rest =>
    match Heap.deref heap item.effect, item.effect with
    | some e, some a => addEffectsToToolBar heap rest (e.addToToolBar a toolBar)
    | _, _ => none

/-- The method `PhotoTweaker::initializeToolBar` (lines 246-267): a toolbar is
created empty when the member is NULL and cleared otherwise, then every
registry entry is asked to add itself. -/
def initializeToolBar (w : PhotoTweaker) : Option PhotoTweaker :=
  let toolBar : List Nat :=
    match w.toolBar with
    | none => []
    | some _ => []
  (addEffectsToToolBar w.heap w.effects toolBar).map fun t => { w with toolBar := some t }

end PhotoTweaker

/-! ## Opening and saving a document -/

namespace Photo

/-- Modelled from the spec: `Photo::open(path)` reports success or failure;
a successful open moves the document from Closed to Open and a failed open
leaves it as it was. `ok` is what the file system lets the call report. -/
def openPath (p : Photo) (path : String) (ok : Bool) : Photo :=
  { p with calls := p.calls ++ [PhotoCall.open path], isOpen := if ok then true else p.isOpen }

def update (p : Photo) : Photo := { p with calls := p.calls ++ [PhotoCall.update] }

def save (p : Photo) : Photo := { p with calls := p.calls ++ [PhotoCall.save] }

def getUndoStack (p : Photo) : Nat := p.undoStack

end Photo

/-- The object whose signal invoked a slot (the value of `sender()`). -/
inductive Sender where
  | actionFileOpen
  | other
deriving DecidableEq

namespace PhotoTweaker

/-- The loop of `open` (lines 338-341), in a build where `Q_ASSERT` evaluates
its argument: each entry's effect is connected to `onSave`, in registry order.
An unassigned or dangling receiver makes the assertion fail (`none`). -/
def connectOnSave (heap : Heap) (items : List effectStruct) (onSave : List Nat) :
    Option (List Nat) :=
  match items with
  | [] => some onSave
  | item :: rest =>
    match Heap.deref heap item.effect, item.effect with
    | some _, some a => connectOnSave heap rest (onSave ++ [a])
    | _, _ => none

/-- The slot `PhotoTweaker::open` (lines 322-345).
* `assertsEvaluated`: whether the macro `Q_ASSERT` of the build evaluates its
  argument (it does unless the build defines `QT_NO_DEBUG`); the `connect`
  calls are written inside that macro.
* `sender`: the object that triggered the slot.
* `getOpenFileName`: what the file dialog returns if it is shown (the empty
  string when it is cancelled).
* `photoOpen`: what `Photo::open` reports for a path. -/
def openSlot (assertsEvaluated : Bool) (sender : Sender) (getOpenFileName : String)
    (photoOpen : String → Bool) (w : PhotoTweaker) : Option PhotoTweaker :=
  let w :=
    if sender = Sender.actionFileOpen then { w with filePath := getOpenFileName } else w
  if w.filePath.isEmpty then
    some w
  else
    let w := { w with photo := w.photo.openPath w.filePath (photoOpen w.filePath) }
    let connected : Option (List Nat) :=
      if assertsEvaluated then connectOnSave w.heap w.effects w.photo.onSave
      else some w.photo.onSave
    connected.map fun onSave =>
      let w := { w with photo := { w.photo with onSave := onSave } }
      let w := { w with photo := w.photo.update }
      let w := { w with undoGroup := w.undoGroup.addStack w.photo.getUndoStack }
      { w with undoGroup := w.undoGroup.setActiveStack w.photo.getUndoStack }

/-- The slot `PhotoTweaker::save` (lines 347-355). -/
def save (w : PhotoTweaker) : PhotoTweaker :=
  if !w.filePath.isEmpty then { w with photo := w.photo.save } else w

/-! ## The preferences dialog -/

/-- The loop of `preferences` (lines 370-374) over the registry: each
effect writes its own settings and its enabled flag is copied into the
descriptor. -/
def acceptEffects (heap : Heap) (items : List effectStruct) :
    Option (Heap × List effectStruct) :=
  match items with
  | [] => some (heap, [])
  | item :: rest =>
    (Heap.call heap item.effect AbstractEffect.writeSettings).bind fun h1 =>
    (Heap.deref h1 item.effect).bind fun e =>
    (acceptEffects h1 rest).map fun r =>
      (r.1, { item with enabled := e.getEnabled } :: r.2)

/-- The slot `PhotoTweaker::preferences` (lines 357-380). `exec` stands for
the modal run of `PreferencesDialog` (not among the sources): given the
effects added to the dialog and the heap, it answers whether the dialog was
accepted and returns the heap as the user's edits left it. -/
def preferences (exec : List (Option Nat) → Heap → Bool × Heap) (settings : Settings)
    (w : PhotoTweaker) : Option (PhotoTweaker × Settings) :=
  let added := w.effects.map effectStruct.effect
  let r := exec added w.heap
  let w := { w with heap := r.2 }
  if r.1 then
    (acceptEffects w.heap w.effects).bind fun a =>
    let w := { w with heap := a.1, effects := a.2 }
    let settings := writeSettings settings w
    (initializeToolBar w).map fun w => (w, settings)
  else
    some (w, settings)

/-- The main window before the body of its constructor runs: no effect, no
effect object, `toolBar(0)`, an empty undo group, a closed document, and the
file path given on the command line. -/
def initial (filePath : String) : PhotoTweaker :=
  { size := (0, 0), pos := (0, 0), effects := [], heap := [], toolBar := none,
    filePath := filePath,
    photo := { isOpen := false, undoStack := 0, onSave := [], calls := [] },
    undoGroup := { stackList := [], activeStack := none } }

/-- The part of the constructor `PhotoTweaker::PhotoTweaker` (lines 37-63)
that builds the registry and the toolbar: `toolBar(0)`, `readSettings`, a new
undo group, `initializeEffects`, `initializeToolBar`, a new `Photo`. -/
def construct (settings : Settings) (filePath : String) : Option PhotoTweaker :=
  let w := readSettings settings (initial filePath)
  (initializeEffects w).bind initializeToolBar

end PhotoTweaker

/-! ## The menu -/

/-- The keys used by the shortcuts of the menu. -/
inductive Key where
  | Key_O | Key_S | Key_Q | Key_W | Key_Z | Key_F1
deriving DecidableEq

/-- A key sequence of one chord: modifiers and key. -/
structure QKeySequence where
  ctrl : Bool
  shift : Bool
  key : Key
deriving DecidableEq

/-- The members `action...` of the main window. -/
inductive ActionName where
  | actionFileOpen | actionFileSave | actionFileQuit
  | actionEditUndo | actionEditRedo | actionEditPreferences
  | actionHelpAbout | actionHelp
deriving DecidableEq

/-- A menu action: which member it is, its text, its shortcuts and whether it
is enabled. -/
structure QAction where
  member : ActionName
  text : String
  shortcuts : List QKeySequence
  enabled : Bool
deriving DecidableEq

namespace QAction

/-- A new action: no shortcut, enabled. -/
def create (member : ActionName) (text : String) : QAction :=
  { member := member, text := text, shortcuts := [], enabled := true }

/-- The call `setShortcut`: the action's shortcuts become this single one. -/
def setShortcut (k : QKeySequence) (a : QAction) : QAction := { a with shortcuts := [k] }

/-- The call `setShortcuts`: the action's shortcuts become this list. -/
def setShortcuts (ks : List QKeySequence) (a : QAction) : QAction := { a with shortcuts := ks }

def setEnabled (flag : Bool) (a : QAction) : QAction := { a with enabled := flag }

end QAction

/-- An entry of a menu: an action or a separator. -/
inductive MenuEntry where
  | action (a : QAction)
  | separator
deriving DecidableEq

/-- A menu of the menu bar. -/
structure QMenu where
  title : String
  entries : List MenuEntry
deriving DecidableEq

def CTRL (k : Key) : QKeySequence := { ctrl := true, shift := false, key := k }
def CTRL_SHIFT (k : Key) : QKeySequence := { ctrl := true, shift := true, key := k }
def PLAIN (k : Key) : QKeySequence := { ctrl := false, shift := false, key := k }

namespace PhotoTweaker

/-- The method `PhotoTweaker::initializeMenu` (lines 172-240): the menu bar
it builds, menu by menu and entry by entry in the order of the source. -/
def initializeMenu : List QMenu :=
  let actionFileOpen :=
    (QAction.create ActionName.actionFileOpen "&Open").setShortcut (CTRL Key.Key_O)
  let actionFileSave :=
    (QAction.create ActionName.actionFileSave "&Save").setShortcut (CTRL Key.Key_S)
  let actionFileQuit :=
    (QAction.create ActionName.actionFileQuit "&Quit").setShortcuts
      [CTRL Key.Key_Q, CTRL Key.Key_W]
  let menuFile : QMenu :=
    { title := "&File",
      entries := [MenuEntry.action actionFileOpen, MenuEntry.separator,
                  MenuEntry.action actionFileSave, MenuEntry.separator,
                  MenuEntry.action actionFileQuit] }
  let actionEditUndo :=
    ((QAction.create ActionName.actionEditUndo "&Undo").setEnabled false).setShortcut
      (CTRL Key.Key_Z)
  let actionEditRedo :=
    ((QAction.create ActionName.actionEditRedo "&Redo").setEnabled false).setShortcuts
      [CTRL Key.Key_Z, CTRL_SHIFT Key.Key_Z]
  let actionEditPreferences := QAction.create ActionName.actionEditPreferences "&Preferences"
  let menuEdit : QMenu :=
    { title := "&Edit",
      entries := [MenuEntry.action actionEditUndo, MenuEntry.action actionEditRedo,
                  MenuEntry.separator, MenuEntry.action actionEditPreferences] }
  let actionHelpAbout := QAction.create ActionName.actionHelpAbout "&About"
  let actionHelp :=
    (QAction.create ActionName.actionHelp "&Help").setShortcut (PLAIN Key.Key_F1)
  let menuHelp : QMenu :=
    { title := "&Help",
      entries := [MenuEntry.action actionHelpAbout, MenuEntry.action actionHelp] }
  [menuFile, menuEdit, menuHelp]

/-- All actions of a menu bar, in menu order. -/
def menuActions (bar : List QMenu) : List QAction :=
  bar.flatMap fun m => m.entries.filterMap fun
    | MenuEntry.action a => some a
    | MenuEntry.separator => none

/-- The shortcuts bound to an action of the menu bar (empty when the menu has
no such action). -/
def shortcutsOf (bar : List QMenu) (member : ActionName) : List QKeySequence :=
  ((menuActions bar).filter fun a => a.member = member).flatMap QAction.shortcuts

/-- The actions of the menu bar that have the key sequence `k` among their
shortcuts. -/
def actionsBoundTo (bar : List QMenu) (k : QKeySequence) : List ActionName :=
  ((menuActions bar).filter fun a => k ∈ a.shortcuts).map QAction.member

end PhotoTweaker

/-! ## The legacy window `PhotoTweak` (src/photoTweak.cpp) -/

/-- The state of the legacy main window `PhotoTweak`: the stored path and
the `Photo` widget. -/
structure PhotoTweak where
  filePath : String
  photo : Photo
deriving DecidableEq

/-- The slot `PhotoTweak::open` (photoTweak.cpp, lines 35-46): the stored
path is overwritten by the dialog result before it is tested. -/
def PhotoTweak.openSlot (getOpenFileName : String) (w : PhotoTweak) : PhotoTweak :=
  let w := { w with filePath := getOpenFileName }
  if w.filePath.isEmpty then
    w
  else
    let w := { w with photo := w.photo.openPath w.filePath true }
    { w with photo := w.photo.update }

/-! ## Properties named by the specification -/

namespace Spec

/-- The ids of the known effects. -/
def knownIds : List Int := [EFFECT_ROTATION, EFFECT_GRAYSCALE, EFFECT_SCALE]

/-- The registry invariant of the specification: exactly one descriptor per
known effect id, and no descriptor with another id. -/
def oneDescriptorPerKnownId (l : List EffectRecord) : Prop :=
  (∀ k ∈ knownIds, (l.filter fun r => r.id = k).length = 1) ∧ (∀ r ∈ l, r.id ∈ knownIds)

instance (l : List EffectRecord) : Decidable (oneDescriptorPerKnownId l) := by
  unfold oneDescriptorPerKnownId
  exact inferInstance

/-- The built-in defaults as the specification lists them: Scale, Rotate,
Grayscale, all enabled. -/
def defaultDescriptors : List EffectRecord :=
  [ { id := 2, name := "Scale", enabled := true },
    { id := 0, name := "Rotate", enabled := true },
    { id := 1, name := "Grayscale", enabled := true } ]

/-- The concrete effect class matching an id: EffectRotate for 0,
EffectGrayscale for 1, EffectScale for 2 (and no class for any other id). -/
def concreteClass (id : Int) : Option EffectClass :=
  if id = 0 then some EffectClass.EffectRotate
  else if id = 1 then some EffectClass.EffectGrayscale
  else if id = 2 then some EffectClass.EffectScale
  else none

/-- The class the specification asks `instantiate()` to construct for a
descriptor: the Disabled placeholder when the flag is off, the concrete class
of the id otherwise. -/
def expectedClass (id : Int) (enabled : Bool) : Option EffectClass :=
  if enabled then concreteClass id else some EffectClass.EffectDisabled

/-- The effect object the specification asks `instantiate()` to leave for a
descriptor: of class `c`, carrying the descriptor's name and enabled flag,
with its own settings loaded (a concrete effect also knows the main window). -/
def expectedEffect (c : EffectClass) (item : effectStruct) : AbstractEffect :=
  { cls := c, mainApp := item.enabled, effectName := item.name, enabled := item.enabled,
    settingsRead := true }

/-- What the specification asks of `instantiate()` for one entry: the entry
points to an effect object, which is the Disabled placeholder when the
entry's flag is off and the concrete effect of the entry's id when the flag is
on and the id is a known one. -/
def instantiatedAsAsked (heap : Heap) (item : effectStruct) : Prop :=
  ∃ (a : Nat) (e : AbstractEffect), item.effect = some a ∧ heap[a]? = some e ∧
    (item.enabled = false → e.cls = EffectClass.EffectDisabled) ∧
    (∀ c : EffectClass, item.enabled = true → concreteClass item.id = some c → e.cls = c)

/-- A descriptor after acceptance of the preferences dialog, in the words
of the specification: the enabled flag is its effect's current flag; id, name
and effect are kept. -/
def syncedEntry (heap : Heap) (item : effectStruct) : effectStruct :=
  match Heap.deref heap item.effect with
  | some e => { item with enabled := e.getEnabled }
  | none => item

/-- The toolbar of the specification: one button per entry whose effect
reports enabled, none for the others, in descriptor order. -/
def enabledButtons (heap : Heap) (items : List effectStruct) : List Nat :=
  items.filterMap fun item =>
    match item.effect with
    | none => none
    | some a =>
      match heap[a]? with
      | some e => if e.enabled then some a else none
      | none => none

/-- Every entry of the registry points to an effect object of the heap (as
after `initializeEffects`). -/
def effectsAssigned (heap : Heap) (items : List effectStruct) : Prop :=
  ∀ item ∈ items, (Heap.deref heap item.effect).isSome = true

instance (heap : Heap) (items : List effectStruct) : Decidable (effectsAssigned heap items) := by
  unfold effectsAssigned
  exact inferInstance

/-- The save contract as the specification words it: element `i` of the
written array carries the id and name of descriptor `i` together with the
live enabled flag of the effect object of entry `i`. -/
def persistsLiveFlags (written : List EffectRecord) (w : PhotoTweaker) : Prop :=
  ∀ (i : Nat) (item : effectStruct) (e : AbstractEffect),
    w.effects[i]? = some item → Heap.deref w.heap item.effect = some e →
    written[i]? = some { id := item.id, name := item.name, enabled := e.getEnabled }

/-- The window that the constructor builds from an empty settings store:
the three default descriptors, their three effect objects and a toolbar of
three buttons. -/
def defaultWindow (filePath : String) : PhotoTweaker :=
  { PhotoTweaker.initial filePath with
    size := (400, 400),
    pos := (200, 200),
    effects :=
      [ { id := 2, name := "Scale", enabled := true, effect := some 0 },
        { id := 0, name := "Rotate", enabled := true, effect := some 1 },
        { id := 1, name := "Grayscale", enabled := true, effect := some 2 } ],
    heap :=
      [ { cls := EffectClass.EffectScale, mainApp := true, effectName := "Scale",
          enabled := true, settingsRead := true },
        { cls := EffectClass.EffectRotate, mainApp := true, effectName := "Rotate",
          enabled := true, settingsRead := true },
        { cls := EffectClass.EffectGrayscale, mainApp := true, effectName := "Grayscale",
          enabled := true, settingsRead := true } ],
    toolBar := some [0, 1, 2] }

/-- The path that `open` works with: the dialog result when the slot was
triggered by the Open action, the stored path otherwise. -/
def resolvedPath (sender : Sender) (getOpenFileName : String) (w : PhotoTweaker) : String :=
  if sender = Sender.actionFileOpen then getOpenFileName else w.filePath

/-- The window built from an empty settings store, after `setEnabled(false)`
was called on the Rotate effect object (address 1) and before any
acceptance of the preferences dialog copied that flag into the descriptor. -/
def rotateSwitchedOff : PhotoTweaker :=
  { PhotoTweaker.initial "" with
    size := (400, 400),
    pos := (200, 200),
    effects :=
      [ { id := 2, name := "Scale", enabled := true, effect := some 0 },
        { id := 0, name := "Rotate", enabled := true, effect := some 1 },
        { id := 1, name := "Grayscale", enabled := true, effect := some 2 } ],
    heap :=
      [ { cls := EffectClass.EffectScale, mainApp := true, effectName := "Scale",
          enabled := true, settingsRead := true },
        { cls := EffectClass.EffectRotate, mainApp := true, effectName := "Rotate",
          enabled := false, settingsRead := true },
        { cls := EffectClass.EffectGrayscale, mainApp := true, effectName := "Grayscale",
          enabled := true, settingsRead := true } ],
    toolBar := some [0, 1, 2] }

/-- A settings store whose effect array has three elements in another order
than the defaults, two of them disabled. -/
def shuffledSettings : Settings :=
  { windowSize := some (640, 480),
    windowPos := some (10, 20),
    effects :=
      [ { id := 1, name := "Grayscale", enabled := false },
        { id := 2, name := "Scale", enabled := true },
        { id := 0, name := "Rotate", enabled := false } ] }

/-- A settings store whose first effect entry carries an id that is none of
0, 1, 2 and is switched off. -/
def unmatchedFirstSettings : Settings :=
  { windowSize := none,
    windowPos := none,
    effects :=
      [ { id := 7, name := "X", enabled := false },
        { id := 0, name := "Rotate", enabled := true },
        { id := 1, name := "Grayscale", enabled := true } ] }

/-- A settings store whose second effect entry carries an id that is none of
0, 1, 2; the first two entries are switched off. -/
def unmatchedSecondSettings : Settings :=
  { windowSize := none,
    windowPos := none,
    effects :=
      [ { id := 0, name := "Rotate", enabled := false },
        { id := 7, name := "X", enabled := false },
        { id := 1, name := "Grayscale", enabled := true } ] }

/-- A run of the preferences dialog in which the user switches on the effect
object at address `a` and accepts. -/
def switchOnAndAccept (a : Nat) (_added : List (Option Nat)) (heap : Heap) : Bool × Heap :=
  match heap[a]? with
  | some e => (true, heap.set a (e.setEnabled true))
  | none => (true, heap)

/-- An empty settings store. -/
def emptySettings : Settings := { windowSize := none, windowPos := none, effects := [] }

end Spec

/-! ## Reading and writing the registry -/

namespace PhotoTweaker

theorem readArray_eq (arr : List EffectRecord) (acc : List effectStruct) :
    readArray arr acc =
      acc ++ arr.map fun r => { id := r.id, name := r.name, enabled := r.enabled, effect := none } := by
  induction arr generalizing acc with
  | nil => simp [readArray]
  | cons r rest ih => simp [readArray, ih]

theorem writeArray_eq (effects : List effectStruct) (acc : List EffectRecord) :
    writeArray effects acc = acc ++ effects.map effectStruct.record := by
  induction effects generalizing acc with
  | nil => simp [writeArray]
  | cons e rest ih => simp [writeArray, ih, effectStruct.record]

theorem readSettings_effects (settings : Settings) (w : PhotoTweaker) :
    (readSettings settings w).effects =
      if settings.effects.length = EFFECT_COUNT then
        settings.effects.map fun r =>
          { id := r.id, name := r.name, enabled := r.enabled, effect := none }
      else defaultEffects := by
  unfold readSettings
  simp only [readArray_eq, List.nil_append, List.length_map]
  split <;> simp_all

theorem descriptors_readSettings (settings : Settings) (w : PhotoTweaker) :
    (readSettings settings w).descriptors =
      if settings.effects.length = EFFECT_COUNT then settings.effects
      else Spec.defaultDescriptors := by
  unfold descriptors
  rw [readSettings_effects]
  split
  · simp [effectStruct.record, Function.comp_def]
  · rfl

theorem writeSettings_effects (settings : Settings) (w : PhotoTweaker) :
    (writeSettings settings w).effects = w.descriptors := by
  simp [writeSettings, writeArray_eq, descriptors]

/-- C1: for every persisted effect array whose length is not 3 (the empty
array included), `readSettings` leaves the registry equal to the three
built-in descriptors Scale (id 2), Rotate (id 0), Grayscale (id 1), all
enabled, in that order, whatever the window state was before the call. -/
theorem readSettings_defaults_of_length_ne (settings : Settings) (w : PhotoTweaker)
    (h : settings.effects.length ≠ 3) :
    (readSettings settings w).descriptors =
      [ { id := EFFECT_SCALE, name := "Scale", enabled := true },
        { id := EFFECT_ROTATION, name := "Rotate", enabled := true },
        { id := EFFECT_GRAYSCALE, name := "Grayscale", enabled := true } ] := by
  rw [descriptors_readSettings]
  simp [EFFECT_COUNT, h]
  rfl

theorem readSettings_defaults_of_length_ne_witness :
    [({ id := 1, name := "Grayscale", enabled := false } : EffectRecord)].length ≠ 3 ∧
    (readSettings
        { windowSize := none, windowPos := none,
          effects := [{ id := 1, name := "Grayscale", enabled := false }] }
        (Spec.defaultWindow "a.png")).descriptors =
      [ { id := EFFECT_SCALE, name := "Scale", enabled := true },
        { id := EFFECT_ROTATION, name := "Rotate", enabled := true },
        { id := EFFECT_GRAYSCALE, name := "Grayscale", enabled := true } ] :=
  ⟨by decide, readSettings_defaults_of_length_ne _ _ (by decide)⟩

/-- C2: for every persisted effect array of length 3, `readSettings` yields a
registry whose entry `i` has the id, name and enabled flag of element `i`, and
`writeSettings` applied to that registry writes the same array back. -/
theorem readSettings_writeSettings_roundtrip (settings store : Settings) (w : PhotoTweaker)
    (h : settings.effects.length = 3) :
    (readSettings settings w).effects.length = 3 ∧
    (∀ i, i < 3 →
      ((readSettings settings w).effects[i]?).map effectStruct.record = settings.effects[i]?) ∧
    (writeSettings store (readSettings settings w)).effects = settings.effects := by
  have hd : (readSettings settings w).descriptors = settings.effects := by
    rw [descriptors_readSettings]; simp [EFFECT_COUNT, h]
  refine ⟨?_, ?_, ?_⟩
  · have := congrArg List.length hd
    simpa [descriptors, h] using this
  · intro i _
    have : (readSettings settings w).descriptors[i]? = settings.effects[i]? := by rw [hd]
    simpa [descriptors] using this
  · rw [writeSettings_effects, hd]

theorem readSettings_writeSettings_roundtrip_witness :
    Spec.shuffledSettings.effects.length = 3 ∧
    (readSettings Spec.shuffledSettings (initial "")).effects.length = 3 ∧
    (∀ i, i < 3 →
      ((readSettings Spec.shuffledSettings (initial "")).effects[i]?).map effectStruct.record
        = Spec.shuffledSettings.effects[i]?) ∧
    (writeSettings Spec.emptySettings (readSettings Spec.shuffledSettings (initial ""))).effects
      = Spec.shuffledSettings.effects :=
  ⟨by decide, readSettings_writeSettings_roundtrip _ _ _ (by decide)⟩

end PhotoTweaker

namespace PhotoTweaker

/-- C4 as stated fails: a persisted array of three entries that all carry id
0 is loaded as it is, so the registry holds id 0 three times and ids 1 and 2
not at all. -/
theorem readSettings_keeps_duplicate_ids :
    (readSettings
        { windowSize := none, windowPos := none,
          effects := [ { id := 0, name := "Rotate", enabled := true },
                       { id := 0, name := "Rotate", enabled := true },
                       { id := 0, name := "Rotate", enabled := true } ] }
        (initial "")).descriptors =
      [ { id := 0, name := "Rotate", enabled := true },
        { id := 0, name := "Rotate", enabled := true },
        { id := 0, name := "Rotate", enabled := true } ] ∧
    ¬ Spec.oneDescriptorPerKnownId
      (readSettings
        { windowSize := none, windowPos := none,
          effects := [ { id := 0, name := "Rotate", enabled := true },
                       { id := 0, name := "Rotate", enabled := true },
                       { id := 0, name := "Rotate", enabled := true } ] }
        (initial "")).descriptors := by
  constructor
  · rfl
  · decide

/-- C4 amended: after `readSettings` the registry always has exactly
`EFFECT_COUNT` = 3 descriptors; they are the persisted array itself when that
array has 3 elements (whatever its ids) and the built-in defaults otherwise,
and the defaults hold exactly one descriptor per known effect id. -/
theorem readSettings_count_checked_only (settings : Settings) (w : PhotoTweaker) :
    (readSettings settings w).effects.length = EFFECT_COUNT ∧
    (readSettings settings w).descriptors =
      (if settings.effects.length = EFFECT_COUNT then settings.effects
       else Spec.defaultDescriptors) ∧
    Spec.oneDescriptorPerKnownId Spec.defaultDescriptors := by
  refine ⟨?_, descriptors_readSettings settings w, by decide⟩
  rw [readSettings_effects]
  split
  · simpa using ‹_›
  · rfl

end PhotoTweaker

/-! ## What `writeSettings` persists -/

namespace PhotoTweaker

/-- C6 as stated fails: in the window where the Rotate effect object reports
disabled while its descriptor still stores enabled, `writeSettings` (and so
`closeEvent`) persists `enabled = true` for Rotate, the descriptor's stored
flag, not the effect's live flag. -/
theorem writeSettings_ignores_live_flag :
    Heap.deref Spec.rotateSwitchedOff.heap (some 1) =
      some { cls := EffectClass.EffectRotate, mainApp := true, effectName := "Rotate",
             enabled := false, settingsRead := true } ∧
    (closeEvent Spec.emptySettings Spec.rotateSwitchedOff).1.effects =
      [ { id := 2, name := "Scale", enabled := true },
        { id := 0, name := "Rotate", enabled := true },
        { id := 1, name := "Grayscale", enabled := true } ] ∧
    ¬ Spec.persistsLiveFlags
        (writeSettings Spec.emptySettings Spec.rotateSwitchedOff).effects
        Spec.rotateSwitchedOff := by
  refine ⟨rfl, rfl, ?_⟩
  intro h
  have h1 := h 1 { id := 0, name := "Rotate", enabled := true, effect := some 1 }
    { cls := EffectClass.EffectRotate, mainApp := true, effectName := "Rotate",
      enabled := false, settingsRead := true } rfl rfl
  revert h1
  decide

/-- C6 amended: `writeSettings` (also run unconditionally by `closeEvent`)
persists, for every index `i`, the id, the name and the stored enabled flag
of descriptor `i`; the written array does not depend on the effect objects,
so where an effect's live flag differs from the descriptor's stored flag the
persisted value is the stored flag. -/
theorem writeSettings_persists_descriptor_fields (settings : Settings) (w : PhotoTweaker) :
    (writeSettings settings w).effects.length = w.effects.length ∧
    (∀ i : Nat, (writeSettings settings w).effects[i]? =
      (w.effects[i]?).map fun item =>
        ({ id := item.id, name := item.name, enabled := item.enabled } : EffectRecord)) ∧
    (∀ heap : Heap,
      (writeSettings settings { w with heap := heap }).effects
        = (writeSettings settings w).effects) ∧
    closeEvent settings w = (writeSettings settings w, true) := by
  refine ⟨?_, ?_, ?_, rfl⟩
  · simp [writeSettings_effects, descriptors]
  · intro i
    simp [writeSettings_effects, descriptors]
    rfl
  · intro heap
    simp [writeSettings_effects, descriptors]

end PhotoTweaker

/-! ## The menu -/

namespace PhotoTweaker

/-- C10: the shortcut bindings of the menu built by `initializeMenu`,
evaluated. Open, Save, Quit, Undo and Help are bound as the claim lists
them, but Redo is bound to Ctrl+Z as well as Ctrl+Shift+Z, so the key sequence
Ctrl+Z is bound to two actions, Undo and Redo. -/
theorem initializeMenu_shortcuts :
    shortcutsOf initializeMenu ActionName.actionFileOpen = [CTRL Key.Key_O] ∧
    shortcutsOf initializeMenu ActionName.actionFileSave = [CTRL Key.Key_S] ∧
    shortcutsOf initializeMenu ActionName.actionFileQuit = [CTRL Key.Key_Q, CTRL Key.Key_W] ∧
    shortcutsOf initializeMenu ActionName.actionEditUndo = [CTRL Key.Key_Z] ∧
    shortcutsOf initializeMenu ActionName.actionEditRedo
      = [CTRL Key.Key_Z, CTRL_SHIFT Key.Key_Z] ∧
    shortcutsOf initializeMenu ActionName.actionEditPreferences = [] ∧
    shortcutsOf initializeMenu ActionName.actionHelpAbout = [] ∧
    shortcutsOf initializeMenu ActionName.actionHelp = [PLAIN Key.Key_F1] ∧
    actionsBoundTo initializeMenu (CTRL Key.Key_Z)
      = [ActionName.actionEditUndo, ActionName.actionEditRedo] := by
  decide

end PhotoTweaker

/-! ## Instantiating the effects -/

namespace PhotoTweaker

/-- C3: `initializeEffects` evaluated on registries that `readSettings`
produces from a persisted array of three entries, one of which is enabled
with an id that matches no branch (7). In second position, the entry is given
the effect object of the entry before it (address 0), which is renamed "X":
the Rotate entry's effect no longer carries the name "Rotate". In first
position, the member calls go through the unassigned pointer, which is
undefined. -/
theorem initializeEffects_unmatched_id :
    (initializeEffects
        (readSettings
          { windowSize := none, windowPos := none,
            effects := [ { id := 0, name := "Rotate", enabled := true },
                         { id := 7, name := "X", enabled := true },
                         { id := 1, name := "Grayscale", enabled := true } ] }
          (initial ""))).map (fun w => (w.effects, w.heap)) =
      some
        ([ { id := 0, name := "Rotate", enabled := true, effect := some 0 },
           { id := 7, name := "X", enabled := true, effect := some 0 },
           { id := 1, name := "Grayscale", enabled := true, effect := some 1 } ],
         [ { cls := EffectClass.EffectRotate, mainApp := true, effectName := "X",
             enabled := true, settingsRead := true },
           { cls := EffectClass.EffectGrayscale, mainApp := true, effectName := "Grayscale",
             enabled := true, settingsRead := true } ]) ∧
    initializeEffects
        (readSettings
          { windowSize := none, windowPos := none,
            effects := [ { id := 7, name := "X", enabled := true },
                         { id := 0, name := "Rotate", enabled := true },
                         { id := 1, name := "Grayscale", enabled := true } ] }
          (initial "")) = none := by
  constructor
  · rfl
  · rfl

end PhotoTweaker

namespace Heap

theorem call_some (h : Heap) (a : Nat) (e : AbstractEffect)
    (f : AbstractEffect → AbstractEffect) (he : h[a]? = some e) :
    Heap.call h (some a) f = some (h.set a (f e)) := by
  simp [Heap.call, he]

theorem call_alloc (h : Heap) (x : AbstractEffect) (f : AbstractEffect → AbstractEffect) :
    Heap.call (h ++ [x]) (some h.length) f = some (h ++ [f x]) := by
  rw [call_some (h ++ [x]) h.length x f (by simp)]
  simp

theorem getElem?_set_self (h : Heap) (a : Nat) (e x : AbstractEffect) (he : h[a]? = some e) :
    (h.set a x)[a]? = some x := by
  have hlt : a < h.length := by
    rcases Nat.lt_or_ge a h.length with hl | hl
    · exact hl
    · rw [List.getElem?_eq_none hl] at he; cases he
  simp [List.getElem?_set, hlt]

end Heap

namespace PhotoTweaker

theorem concreteClass_some (id : Int) (c : EffectClass) (h : Spec.concreteClass id = some c) :
    (id = EFFECT_ROTATION ∧ c = EffectClass.EffectRotate) ∨
    (id ≠ EFFECT_ROTATION ∧ id = EFFECT_GRAYSCALE ∧ c = EffectClass.EffectGrayscale) ∨
    (id ≠ EFFECT_ROTATION ∧ id ≠ EFFECT_GRAYSCALE ∧ id = EFFECT_SCALE ∧
      c = EffectClass.EffectScale) := by
  unfold Spec.concreteClass at h
  simp only [EFFECT_ROTATION, EFFECT_GRAYSCALE, EFFECT_SCALE]
  split at h
  · left; exact ⟨‹_›, by cases h; rfl⟩
  · split at h
    · right; left; exact ⟨‹_›, ‹_›, by cases h; rfl⟩
    · split at h
      · right; right; exact ⟨‹_›, ‹_›, ‹_›, by cases h; rfl⟩
      · cases h

theorem concreteClass_none (id : Int) (h : Spec.concreteClass id = none) :
    id ≠ EFFECT_ROTATION ∧ id ≠ EFFECT_GRAYSCALE ∧ id ≠ EFFECT_SCALE := by
  unfold Spec.concreteClass at h
  simp only [EFFECT_ROTATION, EFFECT_GRAYSCALE, EFFECT_SCALE]
  split at h
  · cases h
  · split at h
    · cases h
    · split at h
      · cases h
      · exact ⟨‹_›, ‹_›, ‹_›⟩

/-- A pass of the loop of `initializeEffects` on an entry that is disabled or
has a known id: a new object of the expected class is placed at the end of the
heap, set up from the entry, and assigned to the entry. -/
theorem initializeEffectsBody_fresh (i : Nat) (effect : Option Nat) (w : PhotoTweaker)
    (item : effectStruct) (c : EffectClass) (hi : w.effects[i]? = some item)
    (hc : Spec.expectedClass item.id item.enabled = some c) :
    initializeEffectsBody i effect w =
      some (some w.heap.length,
        { w with
          heap := w.heap ++ [Spec.expectedEffect c item],
          effects := w.effects.set i { item with effect := some w.heap.length } }) := by
  unfold initializeEffectsBody
  simp only [hi]
  unfold Spec.expectedClass at hc
  cases hen : item.enabled with
  | false =>
    simp only [hen] at hc
    cases hc
    simp [Heap.alloc, Heap.call_alloc, AbstractEffect.create, AbstractEffect.setEffectName,
      AbstractEffect.setEnabled, AbstractEffect.readSettings, Spec.expectedEffect, hen]
  | true =>
    simp only [hen, if_true] at hc
    rcases concreteClass_some _ _ hc with ⟨h0, rfl⟩ | ⟨h0, h1, rfl⟩ | ⟨h0, h1, h2, rfl⟩
    · simp [h0, Heap.alloc, Heap.call_alloc, AbstractEffect.create,
        AbstractEffect.setEffectName, AbstractEffect.setMainApp,
        AbstractEffect.setEnabled, AbstractEffect.readSettings, Spec.expectedEffect, hen]
    · simp [h0, h1, EFFECT_ROTATION, EFFECT_GRAYSCALE, EFFECT_SCALE, Heap.alloc, Heap.call_alloc, AbstractEffect.create,
        AbstractEffect.setEffectName, AbstractEffect.setMainApp,
        AbstractEffect.setEnabled, AbstractEffect.readSettings, Spec.expectedEffect, hen]
    · simp [h0, h1, h2, EFFECT_ROTATION, EFFECT_GRAYSCALE, EFFECT_SCALE, Heap.alloc, Heap.call_alloc, AbstractEffect.create,
        AbstractEffect.setEffectName, AbstractEffect.setMainApp,
        AbstractEffect.setEnabled, AbstractEffect.readSettings, Spec.expectedEffect, hen]

/-- A pass of the loop of `initializeEffects` on an enabled entry whose id
matches no branch, when the pointer variable was assigned by an earlier pass:
no object is created, the earlier object is set up again from this entry and
assigned to it. -/
theorem initializeEffectsBody_stale (i p : Nat) (w : PhotoTweaker)
    (item : effectStruct) (e : AbstractEffect) (hi : w.effects[i]? = some item)
    (hen : item.enabled = true) (hid : Spec.concreteClass item.id = none)
    (hp : w.heap[p]? = some e) :
    initializeEffectsBody i (some p) w =
      some (some p,
        { w with
          heap := w.heap.set p
            { e with mainApp := true, effectName := item.name, enabled := item.enabled,
                     settingsRead := true },
          effects := w.effects.set i { item with effect := some p } }) := by
  obtain ⟨h0, h1, h2⟩ := concreteClass_none _ hid
  have hs : ∀ (x : AbstractEffect) (f : AbstractEffect → AbstractEffect),
      Heap.call (w.heap.set p x) (some p) f = some (w.heap.set p (f x)) := by
    intro x f
    rw [Heap.call_some _ _ _ _ (Heap.getElem?_set_self _ _ _ _ hp)]
    simp
  unfold initializeEffectsBody
  simp only [hi, hen, if_true, h0, h1, h2, if_false]
  rw [Heap.call_some _ _ _ _ hp]
  simp [hs, AbstractEffect.setEffectName, AbstractEffect.setMainApp,
        AbstractEffect.setEnabled, AbstractEffect.readSettings, hen]

end PhotoTweaker

namespace PhotoTweaker

theorem instantiatedAsAsked_append (heap : Heap) (x : AbstractEffect) (item : effectStruct)
    (h : Spec.instantiatedAsAsked heap item) : Spec.instantiatedAsAsked (heap ++ [x]) item := by
  obtain ⟨a, e, ha, he, hoff, hon⟩ := h
  refine ⟨a, e, ha, ?_, hoff, hon⟩
  have hlt : a < heap.length := by
    rcases Nat.lt_or_ge a heap.length with hl | hl
    · exact hl
    · rw [List.getElem?_eq_none hl] at he; cases he
  rw [List.getElem?_append_left hlt]
  exact he

theorem instantiatedAsAsked_set (heap : Heap) (p : Nat) (e0 x : AbstractEffect)
    (item : effectStruct) (hp : heap[p]? = some e0) (hx : x.cls = e0.cls)
    (h : Spec.instantiatedAsAsked heap item) : Spec.instantiatedAsAsked (heap.set p x) item := by
  obtain ⟨a, e, ha, he, hoff, hon⟩ := h
  by_cases hap : p = a
  · subst hap
    rw [hp] at he
    cases he
    refine ⟨p, x, ha, Heap.getElem?_set_self _ _ _ _ hp, ?_, ?_⟩
    · intro h1; rw [hx]; exact hoff h1
    · intro c h1 h2; rw [hx]; exact hon c h1 h2
  · refine ⟨a, e, ha, ?_, hoff, hon⟩
    rw [List.getElem?_set_ne hap]
    exact he

end PhotoTweaker

namespace PhotoTweaker

theorem map_record_set (l : List effectStruct) (i : Nat) (item : effectStruct) (p : Option Nat)
    (hi : l[i]? = some item) :
    (l.set i { item with effect := p }).map effectStruct.record = l.map effectStruct.record := by
  apply List.ext_getElem?
  intro j
  by_cases hj : i = j
  · subst hj
    have hlt : i < l.length := by
      rcases Nat.lt_or_ge i l.length with hl | hl
      · exact hl
      · rw [List.getElem?_eq_none hl] at hi; cases hi
    have hget : l[i] = item := by
      have := List.getElem?_eq_getElem hlt
      rw [hi] at this
      exact (Option.some.inj this).symm
    simp [List.getElem?_set, hlt, hget, effectStruct.record]
  · simp [List.getElem?_set_ne hj]

/-- One pass of the loop of `initializeEffects`, when it is defined: the
entry is handled as the specification asks and no earlier entry is spoilt. -/
theorem initializeEffectsBody_spec (i : Nat) (effect : Option Nat) (w : PhotoTweaker)
    (item : effectStruct) (hi : w.effects[i]? = some item)
    (hdef : (∃ (p : Nat) (e : AbstractEffect), effect = some p ∧ w.heap[p]? = some e) ∨
      Spec.expectedClass item.id item.enabled ≠ none) :
    ∃ (p : Nat) (e : AbstractEffect) (w1 : PhotoTweaker),
      initializeEffectsBody i effect w = some (some p, w1) ∧
      w1.heap[p]? = some e ∧
      w1.effects = w.effects.set i { item with effect := some p } ∧
      Spec.instantiatedAsAsked w1.heap { item with effect := some p } ∧
      (∀ it, Spec.instantiatedAsAsked w.heap it → Spec.instantiatedAsAsked w1.heap it) := by
  cases hc : Spec.expectedClass item.id item.enabled with
  | some c =>
    refine ⟨w.heap.length, Spec.expectedEffect c item, _,
      initializeEffectsBody_fresh i effect w item c hi hc, by simp, rfl, ?_, ?_⟩
    · refine ⟨w.heap.length, Spec.expectedEffect c item, rfl, by simp, ?_, ?_⟩
      · intro hoff
        have hoff1 : item.enabled = false := hoff
        simp [Spec.expectedClass, hoff1] at hc
        simp [Spec.expectedEffect, hc]
      · intro c1 hon hk
        have hon1 : item.enabled = true := hon
        have hk1 : Spec.concreteClass item.id = some c1 := hk
        simp [Spec.expectedClass, hon1, hk1] at hc
        simp [Spec.expectedEffect, hc]
    · intro it hit
      exact instantiatedAsAsked_append _ _ _ hit
  | none =>
    have hen : item.enabled = true := by
      cases h : item.enabled with
      | true => rfl
      | false => simp [Spec.expectedClass, h] at hc
    have hid : Spec.concreteClass item.id = none := by
      simpa [Spec.expectedClass, hen] using hc
    rcases hdef with ⟨p, e, rfl, hp⟩ | hne
    · refine ⟨p, _, _, initializeEffectsBody_stale i p w item e hi hen hid hp,
        Heap.getElem?_set_self _ _ _ _ hp, rfl, ?_, ?_⟩
      · refine ⟨p, _, rfl, Heap.getElem?_set_self _ _ _ _ hp, ?_, ?_⟩
        · intro hoff
          have hoff1 : item.enabled = false := hoff
          rw [hen] at hoff1
          cases hoff1
        · intro c1 _ hk
          have hk1 : Spec.concreteClass item.id = some c1 := hk
          rw [hid] at hk1
          cases hk1
      · intro it hit
        exact instantiatedAsAsked_set _ _ e _ _ hp rfl hit
    · exact absurd hc hne

/-- The loop of `initializeEffects`, from any pass on: it runs to the end
when its first pass is defined, keeps every descriptor's id, name and flag,
and leaves every entry it handled as the specification asks. -/
theorem initializeEffectsLoop_spec (n : Nat) :
    ∀ (i : Nat) (effect : Option Nat) (w : PhotoTweaker),
      i + n ≤ w.effects.length →
      ((∃ (p : Nat) (e : AbstractEffect), effect = some p ∧ w.heap[p]? = some e) ∨
        (∀ item, w.effects[i]? = some item →
          Spec.expectedClass item.id item.enabled ≠ none)) →
      (∀ (j : Nat) (item : effectStruct), j < i → w.effects[j]? = some item →
        Spec.instantiatedAsAsked w.heap item) →
      ∃ w1, initializeEffectsLoop n i effect w = some w1 ∧
        w1.descriptors = w.descriptors ∧
        (∀ (j : Nat) (item : effectStruct), j < i + n → w1.effects[j]? = some item →
          Spec.instantiatedAsAsked w1.heap item) := by
  induction n with
  | zero =>
    intro i effect w _ _ hinv
    exact ⟨w, rfl, rfl, by simpa using hinv⟩
  | succ n ih =>
    intro i effect w hlen hdef hinv
    have hlt : i < w.effects.length := by omega
    obtain ⟨item, hi⟩ : ∃ item, w.effects[i]? = some item :=
      ⟨w.effects[i], List.getElem?_eq_getElem hlt⟩
    have hdef1 : (∃ (p : Nat) (e : AbstractEffect), effect = some p ∧ w.heap[p]? = some e) ∨
        Spec.expectedClass item.id item.enabled ≠ none := by
      rcases hdef with h | h
      · exact Or.inl h
      · exact Or.inr (h item hi)
    obtain ⟨p, e, w1, hbody, hp, heff, hitem, hmono⟩ :=
      initializeEffectsBody_spec i effect w item hi hdef1
    have hlen1 : (i + 1) + n ≤ w1.effects.length := by
      rw [heff, List.length_set]; omega
    have hinv1 : ∀ (j : Nat) (it : effectStruct), j < i + 1 → w1.effects[j]? = some it →
        Spec.instantiatedAsAsked w1.heap it := by
      intro j it hj hit
      rw [heff] at hit
      by_cases hij : i = j
      · subst hij
        simp [List.getElem?_set, hlt] at hit
        rw [← hit]
        exact hitem
      · rw [List.getElem?_set_ne hij] at hit
        exact hmono it (hinv j it (by omega) hit)
    obtain ⟨w2, hloop, hdesc, hall⟩ := ih (i + 1) (some p) w1 hlen1 (Or.inl ⟨p, e, rfl, hp⟩) hinv1
    refine ⟨w2, ?_, ?_, ?_⟩
    · simp [initializeEffectsLoop, hbody, hloop]
    · rw [hdesc]
      unfold descriptors
      rw [heff]
      exact map_record_set _ _ _ _ hi
    · intro j it hj hit
      exact hall j it (by omega) hit

end PhotoTweaker

/-! ## The toolbar -/

namespace PhotoTweaker

theorem effectsAssigned_cons (heap : Heap) (item : effectStruct) (rest : List effectStruct)
    (h : Spec.effectsAssigned heap (item :: rest)) :
    (∃ (a : Nat) (e : AbstractEffect), item.effect = some a ∧ heap[a]? = some e) ∧
    Spec.effectsAssigned heap rest := by
  constructor
  · have h1 := h item (List.mem_cons_self _ _)
    cases ha : item.effect with
    | none => simp [Heap.deref, ha] at h1
    | some a =>
      cases he : heap[a]? with
      | none => simp [Heap.deref, ha, he] at h1
      | some e => exact ⟨a, e, rfl, he⟩
  · intro it hit
    exact h it (List.mem_cons_of_mem _ hit)

theorem addEffectsToToolBar_eq (heap : Heap) (items : List effectStruct) :
    ∀ toolBar : List Nat, Spec.effectsAssigned heap items →
      addEffectsToToolBar heap items toolBar
        = some (toolBar ++ Spec.enabledButtons heap items) := by
  induction items with
  | nil => intro toolBar _; simp [addEffectsToToolBar, Spec.enabledButtons]
  | cons item rest ih =>
    intro toolBar h
    obtain ⟨⟨a, e, ha, he⟩, hrest⟩ := effectsAssigned_cons heap item rest h
    have ih1 := ih (e.addToToolBar a toolBar) hrest
    simp only [addEffectsToToolBar, Heap.deref, ha, he, ih1]
    cases hen : e.enabled with
    | true =>
      simp [AbstractEffect.addToToolBar, AbstractEffect.getEnabled, Spec.enabledButtons,
        List.filterMap_cons, ha, he, hen]
    | false =>
      simp [AbstractEffect.addToToolBar, AbstractEffect.getEnabled, Spec.enabledButtons,
        List.filterMap_cons, ha, he, hen]

/-- C9: for every registry whose entries point to their effect objects and
every prior toolbar content (none included), `initializeToolBar` leaves the
toolbar holding exactly one button per entry whose effect is enabled and none
for a disabled one, in descriptor order, with nothing of the prior content,
and changes nothing else; calling it a second time gives the same window. -/
theorem initializeToolBar_rebuilds (w : PhotoTweaker)
    (h : Spec.effectsAssigned w.heap w.effects) :
    (∀ prior : Option (List Nat),
      initializeToolBar { w with toolBar := prior }
        = some { w with toolBar := some (Spec.enabledButtons w.heap w.effects) }) ∧
    (initializeToolBar w).bind initializeToolBar = initializeToolBar w := by
  have key : ∀ prior : Option (List Nat),
      initializeToolBar { w with toolBar := prior }
        = some { w with toolBar := some (Spec.enabledButtons w.heap w.effects) } := by
    intro prior
    unfold initializeToolBar
    cases prior <;> simp [addEffectsToToolBar_eq _ _ _ h]
  refine ⟨key, ?_⟩
  have h1 := key w.toolBar
  have h2 := key (some (Spec.enabledButtons w.heap w.effects))
  simp only at h1 h2
  rw [h1]
  simpa using h2

theorem initializeToolBar_rebuilds_witness :
    Spec.effectsAssigned Spec.rotateSwitchedOff.heap Spec.rotateSwitchedOff.effects ∧
    (∀ prior : Option (List Nat),
      initializeToolBar { Spec.rotateSwitchedOff with toolBar := prior }
        = some { Spec.rotateSwitchedOff with toolBar := some [0, 2] }) ∧
    (initializeToolBar Spec.rotateSwitchedOff).bind initializeToolBar
      = initializeToolBar Spec.rotateSwitchedOff :=
  ⟨by decide, initializeToolBar_rebuilds Spec.rotateSwitchedOff (by decide)⟩

end PhotoTweaker

/-! ## Opening a document -/

namespace PhotoTweaker

theorem connectOnSave_eq (heap : Heap) (items : List effectStruct) :
    ∀ onSave : List Nat, Spec.effectsAssigned heap items →
      connectOnSave heap items onSave
        = some (onSave ++ items.filterMap effectStruct.effect) := by
  induction items with
  | nil => intro onSave _; simp [connectOnSave]
  | cons item rest ih =>
    intro onSave h
    obtain ⟨⟨a, e, ha, he⟩, hrest⟩ := effectsAssigned_cons heap item rest h
    simp [connectOnSave, Heap.deref, ha, he, ih (onSave ++ [a]) hrest, List.filterMap_cons]

/-- C7 as stated fails: in the window built from an empty settings store with
the path a.png, when `Photo::open` reports failure, `open` still connects
`onSave` to the three effects and adds the undo stack to the (so far empty)
undo group as the active stack, while the document stays Closed. -/
theorem openSlot_wires_after_failed_open :
    (openSlot true Sender.other "" (fun _ => false) (Spec.defaultWindow "a.png")).map
        (fun w => (w.photo.isOpen, w.photo.onSave, w.undoGroup)) =
      some (false, [0, 1, 2], { stackList := [0], activeStack := some 0 }) ∧
    (Spec.defaultWindow "a.png").photo.onSave = [] ∧
    (Spec.defaultWindow "a.png").undoGroup = { stackList := [], activeStack := none } := by
  refine ⟨?_, rfl, rfl⟩
  decide

/-- C7 amended: in a build that evaluates its assertions, for every
non-empty path, `open` calls `Photo::open` with it and then, whether that call
reports success or failure, connects `onSave` to the effect of every registry
entry, calls `Photo::update`, and adds Photo's undo stack to the undo group
as the active stack; the report of `Photo::open` decides only whether the
document becomes Open. -/
theorem openSlot_nonempty_path (sender : Sender)
    (getOpenFileName : String) (photoOpen : String → Bool) (w : PhotoTweaker)
    (hpath : (Spec.resolvedPath sender getOpenFileName w).isEmpty = false)
    (hptr : Spec.effectsAssigned w.heap w.effects) :
    ∃ w1, openSlot true sender getOpenFileName photoOpen w = some w1 ∧
      w1.filePath = Spec.resolvedPath sender getOpenFileName w ∧
      w1.photo.calls = w.photo.calls ++
        [PhotoCall.open (Spec.resolvedPath sender getOpenFileName w), PhotoCall.update] ∧
      w1.photo.isOpen =
        (if photoOpen (Spec.resolvedPath sender getOpenFileName w) then true
         else w.photo.isOpen) ∧
      w1.photo.onSave = w.photo.onSave ++ w.effects.filterMap effectStruct.effect ∧
      w1.undoGroup =
        (w.undoGroup.addStack w.photo.undoStack).setActiveStack w.photo.undoStack ∧
      w1.undoGroup.activeStack = some w.photo.undoStack ∧
      w.photo.undoStack ∈ w1.undoGroup.stackList ∧
      w1.effects = w.effects ∧ w1.heap = w.heap ∧ w1.toolBar = w.toolBar := by
  have hgroup : w.photo.undoStack ∈ (w.undoGroup.addStack w.photo.undoStack).stackList := by
    unfold QUndoGroup.addStack
    split
    · assumption
    · simp
  have hactive :
      ((w.undoGroup.addStack w.photo.undoStack).setActiveStack w.photo.undoStack).activeStack
        = some w.photo.undoStack := by
    simp [QUndoGroup.setActiveStack, hgroup]
  have hmem : w.photo.undoStack ∈
      ((w.undoGroup.addStack w.photo.undoStack).setActiveStack w.photo.undoStack).stackList := by
    simp [QUndoGroup.setActiveStack, hgroup]
  unfold Spec.resolvedPath at hpath ⊢
  unfold openSlot
  cases hs : decide (sender = Sender.actionFileOpen) with
  | true =>
    have hs1 : sender = Sender.actionFileOpen := of_decide_eq_true hs
    simp only [hs1, if_true] at hpath ⊢
    simp [hpath, connectOnSave_eq _ _ _ hptr, Photo.openPath, Photo.update,
      Photo.getUndoStack, hactive, hmem]
  | false =>
    have hs1 : ¬ sender = Sender.actionFileOpen := of_decide_eq_false hs
    simp only [hs1, if_false] at hpath ⊢
    simp [hpath, connectOnSave_eq _ _ _ hptr, Photo.openPath, Photo.update,
      Photo.getUndoStack, hactive, hmem]

end PhotoTweaker

namespace PhotoTweaker

theorem openSlot_nonempty_path_witness :
    (Spec.resolvedPath Sender.other "" (Spec.defaultWindow "a.png")).isEmpty = false ∧
    Spec.effectsAssigned (Spec.defaultWindow "a.png").heap (Spec.defaultWindow "a.png").effects ∧
    ∃ w1, openSlot true Sender.other "" (fun _ => false) (Spec.defaultWindow "a.png") = some w1 ∧
      w1.filePath = Spec.resolvedPath Sender.other "" (Spec.defaultWindow "a.png") ∧
      w1.photo.calls = (Spec.defaultWindow "a.png").photo.calls ++
        [PhotoCall.open (Spec.resolvedPath Sender.other "" (Spec.defaultWindow "a.png")),
         PhotoCall.update] ∧
      w1.photo.isOpen =
        (if (fun _ => false) (Spec.resolvedPath Sender.other "" (Spec.defaultWindow "a.png"))
         then true else (Spec.defaultWindow "a.png").photo.isOpen) ∧
      w1.photo.onSave = (Spec.defaultWindow "a.png").photo.onSave ++
        (Spec.defaultWindow "a.png").effects.filterMap effectStruct.effect ∧
      w1.undoGroup =
        ((Spec.defaultWindow "a.png").undoGroup.addStack
          (Spec.defaultWindow "a.png").photo.undoStack).setActiveStack
          (Spec.defaultWindow "a.png").photo.undoStack ∧
      w1.undoGroup.activeStack = some (Spec.defaultWindow "a.png").photo.undoStack ∧
      (Spec.defaultWindow "a.png").photo.undoStack ∈ w1.undoGroup.stackList ∧
      w1.effects = (Spec.defaultWindow "a.png").effects ∧
      w1.heap = (Spec.defaultWindow "a.png").heap ∧
      w1.toolBar = (Spec.defaultWindow "a.png").toolBar :=
  ⟨by decide, by decide,
    openSlot_nonempty_path Sender.other "" (fun _ => false) (Spec.defaultWindow "a.png")
      (by decide) (by decide)⟩

/-- C8 as stated fails: with a.png stored as the path, when the file picker
opened from the Open action is cancelled, `open` returns without touching the
document, the effects or the undo group, but the stored path is now empty; it
is not the path stored before the call. -/
theorem openSlot_cancelled_dialog_clears_path :
    Spec.resolvedPath Sender.actionFileOpen "" (Spec.defaultWindow "a.png") = "" ∧
    openSlot true Sender.actionFileOpen "" (fun _ => true) (Spec.defaultWindow "a.png")
      = some (Spec.defaultWindow "") ∧
    (Spec.defaultWindow "").filePath ≠ (Spec.defaultWindow "a.png").filePath := by
  refine ⟨rfl, ?_, ?_⟩
  · decide
  · decide

/-- C8 amended: when the path resolved by `open` is empty, `open` calls
neither `Photo::open` nor `Photo::update`, wires no effect and leaves the undo
group and everything else as it was, except that the stored path is empty
after the call: the window is unchanged when the slot was not triggered by the
Open action, and when the picker opened from the Open action was cancelled
the path stored before is overwritten by the empty result. The legacy slot
`PhotoTweak::open` overwrites the stored path in the same way. -/
theorem openSlot_empty_path (assertsEvaluated : Bool) (sender : Sender)
    (getOpenFileName : String) (photoOpen : String → Bool) (w : PhotoTweaker)
    (hpath : (Spec.resolvedPath sender getOpenFileName w).isEmpty = true) :
    openSlot assertsEvaluated sender getOpenFileName photoOpen w
      = some { w with filePath := "" } ∧
    (sender = Sender.other →
      openSlot assertsEvaluated sender getOpenFileName photoOpen w = some w) ∧
    (∀ legacy : PhotoTweak, PhotoTweak.openSlot "" legacy = { legacy with filePath := "" }) := by
  have hempty : Spec.resolvedPath sender getOpenFileName w = "" :=
    (String.isEmpty_iff _).mp hpath
  have he : "".isEmpty = true := by decide
  unfold Spec.resolvedPath at hempty hpath
  refine ⟨?_, ?_, ?_⟩
  · unfold openSlot
    cases sender with
    | actionFileOpen =>
      simp only [if_true] at hempty hpath ⊢
      simp [hempty, he]
    | other =>
      simp only [reduceCtorEq, if_false] at hempty hpath ⊢
      simp [hpath, ← hempty]
  · intro hs
    subst hs
    simp only [reduceCtorEq, if_false] at hempty hpath
    unfold openSlot
    simp [hpath]
  · intro legacy
    simp [PhotoTweak.openSlot, he]

theorem openSlot_empty_path_witness :
    (Spec.resolvedPath Sender.actionFileOpen "" (Spec.defaultWindow "a.png")).isEmpty = true ∧
    openSlot true Sender.actionFileOpen "" (fun _ => true) (Spec.defaultWindow "a.png")
      = some { Spec.defaultWindow "a.png" with filePath := "" } ∧
    (Sender.actionFileOpen = Sender.other →
      openSlot true Sender.actionFileOpen "" (fun _ => true) (Spec.defaultWindow "a.png")
        = some (Spec.defaultWindow "a.png")) ∧
    (∀ legacy : PhotoTweak, PhotoTweak.openSlot "" legacy = { legacy with filePath := "" }) :=
  ⟨by decide,
    openSlot_empty_path true Sender.actionFileOpen "" (fun _ => true)
      (Spec.defaultWindow "a.png") (by decide)⟩

end PhotoTweaker

/-! ## Accepting the preferences dialog -/

namespace PhotoTweaker

theorem Heap_set_same (heap : Heap) (a : Nat) (e : AbstractEffect) (he : heap[a]? = some e) :
    heap.set a e = heap := by
  apply List.ext_getElem?
  intro j
  by_cases hj : a = j
  · subst hj
    rw [Heap.getElem?_set_self heap a e e he, he]
  · rw [List.getElem?_set_ne hj]

theorem syncedEntry_of_assigned (heap : Heap) (item : effectStruct) (a : Nat)
    (e : AbstractEffect) (ha : item.effect = some a) (he : heap[a]? = some e) :
    Spec.syncedEntry heap item = { item with enabled := e.getEnabled } := by
  simp [Spec.syncedEntry, Heap.deref, ha, he]

theorem acceptEffects_eq (heap : Heap) (items : List effectStruct)
    (h : Spec.effectsAssigned heap items) :
    acceptEffects heap items = some (heap, items.map (Spec.syncedEntry heap)) := by
  induction items with
  | nil => simp [acceptEffects]
  | cons item rest ih =>
    obtain ⟨⟨a, e, ha, he⟩, hrest⟩ := effectsAssigned_cons heap item rest h
    simp [acceptEffects, ha, Heap.call_some heap a e _ he, AbstractEffect.writeSettings,
      Heap_set_same heap a e he, Heap.deref, he, ih hrest,
      syncedEntry_of_assigned heap item a e ha he]

theorem effectsAssigned_synced (heap : Heap) (items : List effectStruct)
    (h : Spec.effectsAssigned heap items) :
    Spec.effectsAssigned heap (items.map (Spec.syncedEntry heap)) := by
  intro it hit
  obtain ⟨item, hmem, rfl⟩ := List.mem_map.mp hit
  have h1 := h item hmem
  have heq : (Spec.syncedEntry heap item).effect = item.effect := by
    unfold Spec.syncedEntry
    split <;> rfl
  rw [heq]
  exact h1

/-- Acceptance of the preferences dialog where the reload is defined: on a
registry of three entries that point to their effect objects, `preferences`
sets every descriptor's enabled flag to the current flag of its effect, keeps
id, name, effect and position, persists exactly these descriptors and
rebuilds the toolbar; if moreover the class asked for the first entry exists,
a following `readSettings` and `initializeEffects` reload the same descriptors
and give every entry whose flag is off the Disabled placeholder and every
entry whose flag is on and whose id is 0, 1 or 2 the concrete effect of that
id. Nothing is said of an enabled entry whose id is none of these. -/
theorem preferences_accepted (exec : List (Option Nat) → Heap → Bool × Heap)
    (settings : Settings) (w wNext : PhotoTweaker) (heap1 : Heap)
    (hlen : w.effects.length = EFFECT_COUNT)
    (hacc : exec (w.effects.map effectStruct.effect) w.heap = (true, heap1))
    (hptr : Spec.effectsAssigned heap1 w.effects)
    (h0 : ∀ (item : effectStruct) (e : AbstractEffect), w.effects[0]? = some item →
      Heap.deref heap1 item.effect = some e →
      Spec.expectedClass item.id e.getEnabled ≠ none) :
    ∃ (w1 : PhotoTweaker) (s1 : Settings), preferences exec settings w = some (w1, s1) ∧
      w1.effects.length = w.effects.length ∧
      (∀ (i : Nat) (item : effectStruct), w.effects[i]? = some item →
        ∃ e, Heap.deref heap1 item.effect = some e ∧
          w1.effects[i]? = some { item with enabled := e.getEnabled }) ∧
      s1.effects = w1.descriptors ∧
      w1.toolBar = some (Spec.enabledButtons w1.heap w1.effects) ∧
      ∃ w2, initializeEffects (readSettings s1 wNext) = some w2 ∧
        w2.descriptors = w1.descriptors ∧
        (∀ (j : Nat) (item : effectStruct), w2.effects[j]? = some item →
          Spec.instantiatedAsAsked w2.heap item) := by
  have hsynced := effectsAssigned_synced heap1 w.effects hptr
  have htool := addEffectsToToolBar_eq heap1 (w.effects.map (Spec.syncedEntry heap1)) [] hsynced
  simp only [List.nil_append] at htool
  refine ⟨{ w with
            heap := heap1,
            effects := w.effects.map (Spec.syncedEntry heap1),
            toolBar := some (Spec.enabledButtons heap1
              (w.effects.map (Spec.syncedEntry heap1))) },
          writeSettings settings
            { w with
              heap := heap1,
              effects := w.effects.map (Spec.syncedEntry heap1) },
          ?_, ?_, ?_, ?_, ?_, ?_⟩
  · unfold preferences
    simp only [hacc, if_true, acceptEffects_eq heap1 w.effects hptr, Option.some_bind]
    unfold initializeToolBar
    cases w.toolBar <;> simp [htool]
  · simp
  · intro i item hi
    have hmem : item ∈ w.effects := List.getElem?_mem hi
    obtain ⟨a, e, ha, he⟩ : ∃ (a : Nat) (e : AbstractEffect),
        item.effect = some a ∧ heap1[a]? = some e := by
      have h1 := hptr item hmem
      cases ha : item.effect with
      | none => simp [Heap.deref, ha] at h1
      | some a =>
        cases he : heap1[a]? with
        | none => simp [Heap.deref, ha, he] at h1
        | some e => exact ⟨a, e, rfl, he⟩
    refine ⟨e, by simp [Heap.deref, ha, he], ?_⟩
    simp [List.getElem?_map, hi, syncedEntry_of_assigned heap1 item a e ha he]
  · simp [writeSettings_effects, descriptors]
  · rfl
  · have hs1 : (writeSettings settings
        { w with
          heap := heap1,
          effects := w.effects.map (Spec.syncedEntry heap1) }).effects
        = (w.effects.map (Spec.syncedEntry heap1)).map effectStruct.record := by
      simp [writeSettings_effects, descriptors]
    have hs1len : (writeSettings settings
        { w with
          heap := heap1,
          effects := w.effects.map (Spec.syncedEntry heap1) }).effects.length
        = EFFECT_COUNT := by
      rw [hs1]; simpa using hlen
    generalize writeSettings settings
        { w with
          heap := heap1,
          effects := w.effects.map (Spec.syncedEntry heap1) } = s1 at hs1 hs1len
    have hread : (readSettings s1 wNext).effects =
        s1.effects.map fun r =>
          { id := r.id, name := r.name, enabled := r.enabled, effect := none } := by
      rw [readSettings_effects, if_pos hs1len]
    have hdesc : (readSettings s1 wNext).descriptors = s1.effects := by
      rw [descriptors_readSettings, if_pos hs1len]
    have hlen3 : 0 + 3 ≤ (readSettings s1 wNext).effects.length := by
      rw [hread, List.length_map, hs1len]
      decide
    have hdef : ∀ item, (readSettings s1 wNext).effects[0]? = some item →
        Spec.expectedClass item.id item.enabled ≠ none := by
      intro item hitem
      rw [hread, hs1] at hitem
      simp only [List.getElem?_map, Option.map_eq_some'] at hitem
      obtain ⟨r, ⟨it1, ⟨it0, hit0, rfl⟩, rfl⟩, rfl⟩ := hitem
      have hmem : it0 ∈ w.effects := List.getElem?_mem hit0
      obtain ⟨⟨a, e, ha, he⟩, -⟩ := effectsAssigned_cons heap1 it0 [] (by
        intro it hit
        rw [List.mem_singleton] at hit
        subst hit
        exact hptr _ hmem)
      have := h0 it0 e hit0 (by simp [Heap.deref, ha, he])
      simpa [syncedEntry_of_assigned heap1 it0 a e ha he, effectStruct.record] using this
    obtain ⟨w2, hloop, hd2, hall⟩ :=
      initializeEffectsLoop_spec 3 0 none (readSettings s1 wNext) hlen3 (Or.inr hdef)
        (by intro j item hj; omega)
    refine ⟨w2, hloop, ?_, ?_⟩
    · rw [hd2, hdesc, hs1]
      rfl
    · intro j item hj
      have hlen2 : w2.effects.length = 3 := by
        have := congrArg List.length hd2
        rw [hdesc] at this
        simpa [descriptors, hs1len, EFFECT_COUNT] using this
      have hj3 : j < 0 + 3 := by
        rcases Nat.lt_or_ge j w2.effects.length with hl | hl
        · omega
        · rw [List.getElem?_eq_none hl] at hj; cases hj
      exact hall j item hj3 hj

end PhotoTweaker

namespace PhotoTweaker

theorem preferences_accepted_on_defaults :
    (Spec.defaultWindow "").effects.length = EFFECT_COUNT ∧
    Spec.effectsAssigned Spec.rotateSwitchedOff.heap (Spec.defaultWindow "").effects ∧
    ∃ (w1 : PhotoTweaker) (s1 : Settings),
      preferences (fun _ _ => (true, Spec.rotateSwitchedOff.heap)) Spec.emptySettings
        (Spec.defaultWindow "") = some (w1, s1) ∧
      w1.effects.length = (Spec.defaultWindow "").effects.length ∧
      (∀ (i : Nat) (item : effectStruct), (Spec.defaultWindow "").effects[i]? = some item →
        ∃ e, Heap.deref Spec.rotateSwitchedOff.heap item.effect = some e ∧
          w1.effects[i]? = some { item with enabled := e.getEnabled }) ∧
      s1.effects = w1.descriptors ∧
      w1.toolBar = some (Spec.enabledButtons w1.heap w1.effects) ∧
      ∃ w2, initializeEffects (readSettings s1 (initial "")) = some w2 ∧
        w2.descriptors = w1.descriptors ∧
        (∀ (j : Nat) (item : effectStruct), w2.effects[j]? = some item →
          Spec.instantiatedAsAsked w2.heap item) := by
  refine ⟨by decide, by decide, ?_⟩
  have h0 : ∀ (item : effectStruct) (e : AbstractEffect),
      (Spec.defaultWindow "").effects[0]? = some item →
      Heap.deref Spec.rotateSwitchedOff.heap item.effect = some e →
      Spec.expectedClass item.id e.getEnabled ≠ none := by
    intro item e hi he
    have hi1 : some (effectStruct.mk 2 "Scale" true (some 0)) = some item := hi
    cases hi1
    have he1 : some (AbstractEffect.mk EffectClass.EffectScale true "Scale" true true)
        = some e := he
    cases he1
    decide
  exact preferences_accepted (fun _ _ => (true, Spec.rotateSwitchedOff.heap))
    Spec.emptySettings (Spec.defaultWindow "") (initial "") Spec.rotateSwitchedOff.heap
    (by decide) rfl (by decide) h0

/-- On a registry of three entries that are each disabled or of a known id,
`initializeEffects` does what the specification asks: entry `i` is given a new
object of the expected class that carries the entry's name and flag, and the
descriptors are untouched. -/
theorem initializeEffects_of_expected_classes (w : PhotoTweaker) (a b c : effectStruct)
    (ca cb cc : EffectClass) (hw : w.effects = [a, b, c])
    (ha : Spec.expectedClass a.id a.enabled = some ca)
    (hb : Spec.expectedClass b.id b.enabled = some cb)
    (hc : Spec.expectedClass c.id c.enabled = some cc) :
    initializeEffects w =
      some { w with
             heap := w.heap ++
               [Spec.expectedEffect ca a, Spec.expectedEffect cb b, Spec.expectedEffect cc c],
             effects := [ { a with effect := some w.heap.length },
                          { b with effect := some (w.heap.length + 1) },
                          { c with effect := some (w.heap.length + 2) } ] } := by
  unfold initializeEffects
  simp only [EFFECT_COUNT, initializeEffectsLoop]
  rw [initializeEffectsBody_fresh 0 none w a ca (by simp [hw]) ha]
  simp only [Option.some_bind]
  rw [initializeEffectsBody_fresh (0 + 1) _ _ b cb (by simp [hw]) hb]
  simp only [Option.some_bind]
  rw [initializeEffectsBody_fresh (0 + 1 + 1) _ _ c cc (by simp [hw]) hc]
  simp [hw]

/-- The constructor applied to an empty settings store builds the default
window. -/
theorem construct_emptySettings (filePath : String) :
    construct Spec.emptySettings filePath = some (Spec.defaultWindow filePath) := by
  have hread : readSettings Spec.emptySettings (initial filePath) =
      { initial filePath with
        size := (400, 400),
        pos := (200, 200),
        effects := defaultEffects } := by
    simp [readSettings, Spec.emptySettings, readArray, EFFECT_COUNT]
  unfold construct
  rw [hread]
  dsimp only
  rw [initializeEffects_of_expected_classes _ _ _ _ EffectClass.EffectScale
    EffectClass.EffectRotate EffectClass.EffectGrayscale rfl (by decide) (by decide) (by decide)]
  simp [initializeToolBar, addEffectsToToolBar, Heap.deref, initial, Spec.defaultWindow,
    Spec.expectedEffect, AbstractEffect.addToToolBar, AbstractEffect.getEnabled,
    EFFECT_SCALE, EFFECT_ROTATION, EFFECT_GRAYSCALE]

end PhotoTweaker

/-! ## Switching on an entry whose id matches no effect -/

namespace PhotoTweaker

/-- C5: `preferences` and the following reload, evaluated on windows built from
a persisted array of three entries one of which has id 7 and is switched off.
The constructor succeeds (the entry gets a Disabled placeholder); the user
switches that entry on and accepts; `preferences` persists the flag. With the
entry in first position the reload is undefined: `initializeEffects` calls
`setMainApp` through the unassigned pointer. With the entry in second
position the reload gives it no effect of its own: it shares the Disabled
placeholder of the entry before it. -/
theorem preferences_switch_on_unmatched_id :
    (construct Spec.unmatchedFirstSettings "").map
        (fun w => (w.descriptors, w.heap.map AbstractEffect.cls)) =
      some ([ { id := 7, name := "X", enabled := false },
              { id := 0, name := "Rotate", enabled := true },
              { id := 1, name := "Grayscale", enabled := true } ],
            [EffectClass.EffectDisabled, EffectClass.EffectRotate,
             EffectClass.EffectGrayscale]) ∧
    ((construct Spec.unmatchedFirstSettings "").bind
        (preferences (Spec.switchOnAndAccept 0) Spec.unmatchedFirstSettings)).map
        (fun r => (r.2.effects, initializeEffects (readSettings r.2 (initial "")))) =
      some ([ { id := 7, name := "X", enabled := true },
              { id := 0, name := "Rotate", enabled := true },
              { id := 1, name := "Grayscale", enabled := true } ],
            none) ∧
    ((construct Spec.unmatchedSecondSettings "").bind
        (preferences (Spec.switchOnAndAccept 1) Spec.unmatchedSecondSettings)).map
        (fun r => (r.2.effects,
          (initializeEffects (readSettings r.2 (initial ""))).map
            (fun w => (w.effects, w.heap)))) =
      some ([ { id := 0, name := "Rotate", enabled := false },
              { id := 7, name := "X", enabled := true },
              { id := 1, name := "Grayscale", enabled := true } ],
            some ([ { id := 0, name := "Rotate", enabled := false, effect := some 0 },
                    { id := 7, name := "X", enabled := true, effect := some 0 },
                    { id := 1, name := "Grayscale", enabled := true, effect := some 1 } ],
                  [ { cls := EffectClass.EffectDisabled, mainApp := true, effectName := "X",
                      enabled := true, settingsRead := true },
                    { cls := EffectClass.EffectGrayscale, mainApp := true,
                      effectName := "Grayscale", enabled := true, settingsRead := true } ])) := by
  refine ⟨?_, ?_, ?_⟩
  · rfl
  · rfl
  · rfl

end PhotoTweaker
